import Mathlib

/-!
Verification of the A2A task-protocol layer of the reddit_agent repository.

The Python source is shallowly embedded as follows.

Mutable Python objects are modelled by an explicit heap inside `Store`:
history lists (Python `list` objects) live in `histHeap`, task objects
(pydantic `Task` instances, whose `status` attribute is rebound and whose
`history` list is mutated in place) live in `taskHeap`, and the manager's
`self.tasks` dict maps task ids to task-object references.  `model_copy()`
(a shallow copy) allocates a fresh task cell that shares the `histRef` of
the original, exactly as pydantic shares the underlying list object.

Python exceptions are modelled with `Except`; because an exception escaping
a handler leaves all mutations performed so far in place, every stateful
operation returns the post-state alongside the `Except` outcome.

`datetime.now()` is passed in as an explicit integer clock value `now`;
the unused opaque `metadata` dicts and the uuid-defaulted JSON-RPC response
`id` of `SendTaskResponse` are not modelled (no code path reads them).
-/

namespace RedditA2A

/-- Message role, the pydantic `Literal["user", "agent"]` of `Message.role`
(src/models/task.py). -/
inductive Role where
  | user
  | agent
deriving DecidableEq, Repr

/-- Wire string of a role, as pydantic serializes the literal. -/
def Role.toWire : Role → String
  | .user => "user"
  | .agent => "agent"

/-- TextPart model (src/models/task.py): the `type` field is the constant
literal "text", so only `text` carries data. -/
structure TextPart where
  text : String
deriving DecidableEq, Repr

/-- Message model (src/models/task.py). -/
structure Message where
  role : Role
  parts : List TextPart
deriving DecidableEq, Repr

/-- TaskStatus model (src/models/task.py): `state` is a plain `str` field
(not the `TaskState` enum), `timestamp` is a `datetime` modelled as an
integer instant. -/
structure TaskStatus where
  state : String
  timestamp : Int
deriving DecidableEq, Repr

/-- Values of the `TaskState` enum (src/models/task.py). -/
def TaskState.SUBMITTED : String := "submitted"

/-- TaskState.WORKING value. -/
def TaskState.WORKING : String := "working"

/-- TaskState.INPUT_REQUIRED value. -/
def TaskState.INPUT_REQUIRED : String := "input-required"

/-- TaskState.COMPLETED value. -/
def TaskState.COMPLETED : String := "completed"

/-- TaskState.CANCELED value. -/
def TaskState.CANCELED : String := "canceled"

/-- TaskState.FAILED value. -/
def TaskState.FAILED : String := "failed"

/-- TaskState.UNKNOWN value. -/
def TaskState.UNKNOWN : String := "unknown"

/-- A Task object on the heap (src/models/task.py `Task`): the `history`
field of the Python object is a reference to a mutable list, modelled by
an index into `Store.histHeap`. -/
structure TaskObj where
  id : String
  status : TaskStatus
  histRef : Nat
deriving DecidableEq, Repr

/-- The caller-visible value of a task at one instant: the Python `Task`
with its history list dereferenced. -/
structure TaskView where
  id : String
  status : TaskStatus
  history : List Message
deriving DecidableEq, Repr

/-- The mutable state of an `InMemoryTaskManager` (src/server/task_manager.py):
`tasks` is the `self.tasks` dict (id to task-object reference), and the two
heaps hold the mutable Python objects those references denote. -/
structure Store where
  histHeap : List (List Message)
  taskHeap : List TaskObj
  tasks : List (String × Nat)
deriving DecidableEq, Repr

/-- The manager's initial state: `self.tasks = {}`. -/
def Store.empty : Store := ⟨[], [], []⟩

/-- Dereference a history-list reference. -/
def Store.getHist (st : Store) (r : Nat) : List Message :=
  st.histHeap.getD r []

/-- Dereference a task-object reference. -/
def Store.getTask (st : Store) (r : Nat) : TaskObj :=
  st.taskHeap.getD r ⟨"", ⟨"", 0⟩, 0⟩

/-- Allocate a fresh history list (a Python list literal or slice result). -/
def Store.allocHist (st : Store) (h : List Message) : Store × Nat :=
  ({ st with histHeap := st.histHeap ++ [h] }, st.histHeap.length)

/-- Allocate a fresh task object (a `Task(...)` construction or `model_copy`). -/
def Store.allocTask (st : Store) (t : TaskObj) : Store × Nat :=
  ({ st with taskHeap := st.taskHeap ++ [t] }, st.taskHeap.length)

/-- In-place update of the history list behind reference `r`
(Python `task.history.append(...)` rebinds nothing; it mutates the list). -/
def Store.setHist (st : Store) (r : Nat) (h : List Message) : Store :=
  { st with histHeap := st.histHeap.set r h }

/-- In-place update of the task object behind reference `r`
(Python attribute assignment such as `task.status = ...`). -/
def Store.setTask (st : Store) (r : Nat) (t : TaskObj) : Store :=
  { st with taskHeap := st.taskHeap.set r t }

/-- Dict lookup `self.tasks.get(id)`. -/
def Store.lookupTask (st : Store) (i : String) : Option Nat :=
  st.tasks.lookup i

/-- The task value a holder of reference `r` observes in state `st`. -/
def Store.viewRef (st : Store) (r : Nat) : TaskView :=
  let t := st.getTask r
  ⟨t.id, t.status, st.getHist t.histRef⟩

/-- History of the task stored under id `i`, if any. -/
def storedHistory (st : Store) (i : String) : Option (List Message) :=
  (st.lookupTask i).map fun r => st.getHist (st.getTask r).histRef

/-- Status of the task stored under id `i`, if any. -/
def storedStatus (st : Store) (i : String) : Option TaskStatus :=
  (st.lookupTask i).map fun r => (st.getTask r).status

/-- Well-formedness of the heap: every reference held by the dict points
into the task heap and every task's history reference points into the
history heap.  Every state reachable from `Store.empty` satisfies this. -/
def Store.WF (st : Store) : Prop :=
  (∀ r ∈ st.tasks.map Prod.snd, r < st.taskHeap.length) ∧
  (∀ t ∈ st.taskHeap, t.histRef < st.histHeap.length)

instance (st : Store) : Decidable st.WF := by
  unfold Store.WF; infer_instance

/-- Python exceptions that the embedded code can raise. -/
inductive PyErr where
  | validationError (msg : String)
  | valueError (msg : String)
  | attributeError (msg : String)
  | indexError (msg : String)
  | runtimeError (msg : String)
deriving DecidableEq, Repr

/-- The `str(e)` of an exception. -/
def PyErr.str : PyErr → String
  | .validationError m => m
  | .valueError m => m
  | .attributeError m => m
  | .indexError m => m
  | .runtimeError m => m

/-- TaskSendParams (src/models/task.py): the caller-supplied task id, the
session id (defaulted by the pydantic factory before reaching the manager),
the incoming message, and the optional historyLength. -/
structure TaskSendParams where
  id : String
  session_id : String
  message : Message
  historyLength : Option Int
deriving DecidableEq, Repr

/-- TaskQueryParams (src/models/task.py). -/
structure TaskQueryParams where
  id : String
  historyLength : Option Int
deriving DecidableEq, Repr

/-- SendTaskRequest (src/models/request.py); `rpcId` is the JSON-RPC
envelope id (string or null). -/
structure SendTaskRequest where
  rpcId : Option String
  params : TaskSendParams
deriving DecidableEq, Repr

/-- GetTaskRequest (src/models/request.py). -/
structure GetTaskRequest where
  rpcId : Option String
  params : TaskQueryParams
deriving DecidableEq, Repr

/-- JSONRPCError model (src/models/json_rpc.py): `code` and `message` are
required fields with no default. -/
structure JSONRPCError where
  code : Int
  message : String
deriving DecidableEq, Repr

/-- A plain Python dict literal destined for the `error` field, as written
in `on_get_task` (it carries at most a `code` and a `message` key). -/
structure ErrorDict where
  code : Option Int
  message : Option String
deriving DecidableEq, Repr

/-- Pydantic validation of a plain dict against the `JSONRPCError` model:
both `code` and `message` are required, so a dict missing either one makes
the surrounding model construction raise a `ValidationError`. -/
def validateJSONRPCError (d : ErrorDict) : Except PyErr JSONRPCError :=
  match d.code, d.message with
  | some c, some m => .ok ⟨c, m⟩
  | none, _ => .error (.validationError "JSONRPCError: code field required")
  | _, none => .error (.validationError "JSONRPCError: message field required")

/-- GetTaskResponse (src/models/request.py): `result` holds a reference to
the task object placed in the response. -/
structure GetTaskResponse where
  rpcId : Option String
  result : Option Nat
  error : Option JSONRPCError
deriving DecidableEq, Repr

/-- SendTaskResponse (src/models/request.py).  Its uuid-defaulted envelope
id is never read, so it is not modelled. -/
structure SendTaskResponse where
  result : Option Nat
  error : Option JSONRPCError
deriving DecidableEq, Repr

/-- Python list slicing `xs[s:]` with an integer start: a negative start
counts from the end (clamped at 0), a non-negative start is clamped at the
length.  In particular `xs[-0:]` is `xs[0:]`, the whole list. -/
def pySliceFrom (s : Int) (xs : List α) : List α :=
  if s < 0 then xs.drop ((xs.length + s).toNat)
  else xs.drop s.toNat

/-- InMemoryTaskManager.upsert_task (src/server/task_manager.py):
under the lock, create a task with status `submitted` and history
`[params.message]` when the id is new, otherwise append `params.message`
to the existing task's history; return the stored task object. -/
def upsertTask (now : Int) (params : TaskSendParams) (st : Store) : Store × Nat :=
  match st.lookupTask params.id with
  | none =>
      let a1 := st.allocHist [params.message]
      let a2 := a1.1.allocTask ⟨params.id, ⟨TaskState.SUBMITTED, now⟩, a1.2⟩
      ({ a2.1 with tasks := (params.id, a2.2) :: a2.1.tasks }, a2.2)
  | some tr =>
      let t := st.getTask tr
      (st.setHist t.histRef (st.getHist t.histRef ++ [params.message]), tr)

/-- InMemoryTaskManager.on_get_task (src/server/task_manager.py).
On a miss it builds `GetTaskResponse(id=request.id, error={"message":
"Task not found"})`; validating that dict against `JSONRPCError` fails
(no `code`), so the construction raises.  On a hit it makes a shallow
`model_copy` of the task object and, when `historyLength` is given,
rebinds the copy's history to the slice `history[-historyLength:]`. -/
def onGetTask (req : GetTaskRequest) (st : Store) :
    Store × Except PyErr GetTaskResponse :=
  let query := req.params
  match st.lookupTask query.id with
  | none =>
      match validateJSONRPCError ⟨none, some "Task not found"⟩ with
      | .error e => (st, .error e)
      | .ok err => (st, .ok ⟨req.rpcId, none, some err⟩)
  | some tr =>
      let task := st.getTask tr
      let a1 := st.allocTask task
      match query.historyLength with
      | some n =>
          let c := a1.1.getTask a1.2
          let a2 := a1.1.allocHist (pySliceFrom (-n) (a1.1.getHist c.histRef))
          (a2.1.setTask a1.2 { c with histRef := a2.2 },
           .ok ⟨req.rpcId, some a1.2, none⟩)
      | none => (a1.1, .ok ⟨req.rpcId, some a1.2, none⟩)

/-- RedditAgentTaskManager._get_user_query (src/agent/task_manager.py):
`request.params.message.parts[0].text`; indexing an empty parts list
raises `IndexError`. -/
def getUserQuery (req : SendTaskRequest) : Except PyErr String :=
  match req.params.message.parts with
  | [] => .error (.indexError "list index out of range")
  | p :: _ => .ok p.text

/-- RedditAgentTaskManager.on_send_task (src/agent/task_manager.py):
upsert the incoming message, resolve a reply via the agent, then under the
lock set `task.status = TaskStatus(state="COMPLETED")` (the raw string in
the source, not the `TaskState.COMPLETED` enum value) and append the agent
message to the task's history; return the stored task in the response.
An exception from the query extraction or the resolve call escapes with
the post-upsert store intact. -/
def onSendTask (resolve : String → String → Except PyErr String) (now : Int)
    (req : SendTaskRequest) (st : Store) :
    Store × Except PyErr SendTaskResponse :=
  let u := upsertTask now req.params st
  match getUserQuery req with
  | .error e => (u.1, .error e)
  | .ok q =>
    match resolve q req.params.session_id with
    | .error e => (u.1, .error e)
    | .ok text =>
        let agentMsg : Message := ⟨.agent, [⟨text⟩]⟩
        let t := u.1.getTask u.2
        let st2 := u.1.setTask u.2 { t with status := ⟨"COMPLETED", now⟩ }
        let st3 := st2.setHist t.histRef (st2.getHist t.histRef ++ [agentMsg])
        (st3, .ok ⟨some u.2, none⟩)

/-- One part of an ADK event's content (google.genai types, external):
`text` may be absent. -/
structure EvtPart where
  text : Option String
deriving DecidableEq, Repr

/-- Content of an ADK event. -/
structure EvtContent where
  parts : List EvtPart
deriving DecidableEq, Repr

/-- An ADK runner event; `content` may be absent. -/
structure Event where
  content : Option EvtContent
deriving DecidableEq, Repr

/-- The response-extraction tail of RedditAgent.invoke (src/agent/agent.py),
as a function of the event list the external runner produced: if the list
is empty, or the last event has no content, or that content has no parts,
return the ad hoc fallback string; otherwise join the truthy part texts
(Python filters both `None` and the empty string) with newlines. -/
def redditInvoke (events : List Event) : String :=
  match events.getLast? with
  | none => "No response from agent"
  | some last =>
    match last.content with
    | none => "No response from agent"
    | some c =>
      match c.parts with
      | [] => "No response from agent"
      | _ =>
        String.intercalate "\n"
          (c.parts.filterMap fun p =>
            match p.text with
            | some t => if t = "" then none else some t
            | none => none)

/-- Attributes that exist on a Python `logging.Logger` object.  The server's
exception handler calls `logger.errorr(...)` (src/server/server.py), which
is not among them. -/
def loggerAttrs : List String :=
  ["debug", "info", "warning", "warn", "error", "exception", "critical",
   "fatal", "log", "setLevel", "isEnabledFor", "getEffectiveLevel",
   "getChild", "addHandler", "removeHandler", "hasHandlers", "handle",
   "makeRecord", "findCaller", "addFilter", "removeFilter", "filter",
   "name", "level", "parent", "propagate", "handlers", "disabled",
   "filters", "manager", "root"]

/-- Python attribute access on the module logger: a name outside
`loggerAttrs` raises `AttributeError`. -/
def loggerGetAttr (name : String) : Except PyErr Unit :=
  if name ∈ loggerAttrs then .ok ()
  else .error (.attributeError ("Logger object has no attribute " ++ name))

/-- JSON values, the target of `model_dump` plus `jsonable_encoder`.
The ISO-8601 rendering of a `datetime` is abstracted as the underlying
integer instant carried by a JSON number (an injective scalar encoding,
inverted exactly by the pydantic datetime parser). -/
inductive Json where
  | null
  | str (s : String)
  | num (n : Int)
  | arr (xs : List Json)
  | obj (fields : List (String × Json))
deriving Repr

/-- Field lookup in a JSON object (absent on non-objects). -/
def Json.getField (j : Json) (k : String) : Option Json :=
  match j with
  | .obj fs => fs.lookup k
  | _ => none

/-- Wire form of a TextPart: `model_dump` emits the literal `type`
discriminator alongside the text. -/
def TextPart.toJson (p : TextPart) : Json :=
  .obj [("type", .str "text"), ("text", .str p.text)]

/-- Pydantic validation of a dict against `TextPart`: `type`, when present,
must be the literal "text" (it defaults to "text" when absent) and `text`
must be a string. -/
def TextPart.fromJson (j : Json) : Option TextPart :=
  let tyOk :=
    match j.getField "type" with
    | none => true
    | some (.str s) => s = "text"
    | some _ => false
  match j.getField "text", tyOk with
  | some (.str t), true => some ⟨t⟩
  | _, _ => none

/-- Wire form of a Message. -/
def Message.toJson (m : Message) : Json :=
  .obj [("role", .str m.role.toWire), ("parts", .arr (m.parts.map TextPart.toJson))]

/-- Pydantic validation of a role string against `Literal["user", "agent"]`. -/
def Role.fromWire (s : String) : Option Role :=
  if s = "user" then some .user
  else if s = "agent" then some .agent
  else none

/-- Element-wise validation of a JSON array against `List[Part]`. -/
def parsePartList : List Json → Option (List TextPart)
  | [] => some []
  | j :: js =>
    match TextPart.fromJson j, parsePartList js with
    | some p, some ps => some (p :: ps)
    | _, _ => none

/-- Pydantic validation of a dict against `Message`. -/
def Message.fromJson (j : Json) : Option Message :=
  match j.getField "role", j.getField "parts" with
  | some (.str r), some (.arr js) =>
    match Role.fromWire r, parsePartList js with
    | some role, some ps => some ⟨role, ps⟩
    | _, _ => none
  | _, _ => none

/-- Wire form of a TaskStatus. -/
def TaskStatus.toJson (s : TaskStatus) : Json :=
  .obj [("state", .str s.state), ("timestamp", .num s.timestamp)]

/-- Pydantic validation of a dict against `TaskStatus`. -/
def TaskStatus.fromJson (j : Json) : Option TaskStatus :=
  match j.getField "state", j.getField "timestamp" with
  | some (.str s), some (.num t) => some ⟨s, t⟩
  | _, _ => none

/-- Element-wise validation of a JSON array against `List[Message]`. -/
def parseMessageList : List Json → Option (List Message)
  | [] => some []
  | j :: js =>
    match Message.fromJson j, parseMessageList js with
    | some m, some ms => some (m :: ms)
    | _, _ => none

/-- Wire form of a Task, the shape produced by `model_dump`:
`{id, status: {state, timestamp}, history: [{role, parts: [...]}]}`. -/
def TaskView.toJson (t : TaskView) : Json :=
  .obj [("id", .str t.id), ("status", t.status.toJson),
        ("history", .arr (t.history.map Message.toJson))]

/-- Pydantic validation of a dict against `Task`, as done by the client's
`Task(**response["result"])` (src/client/client.py). -/
def TaskView.fromJson (j : Json) : Option TaskView :=
  match j.getField "id", j.getField "status", j.getField "history" with
  | some (.str i), some sj, some (.arr hs) =>
    match TaskStatus.fromJson sj, parseMessageList hs with
    | some s, some ms => some ⟨i, s, ms⟩
    | _, _ => none
  | _, _, _ => none

/-- The typed requests the `A2ARequest` discriminated union
(src/models/request.py) can resolve an envelope to. -/
inductive A2AReq where
  | send (r : SendTaskRequest)
  | get (r : GetTaskRequest)
deriving Repr

/-- Outcome of one HTTP POST: a JSON response with an explicit status code,
or an exception that escaped the route handler, which the framework turns
into a bare 500 with no JSON-RPC body. -/
inductive HttpResult where
  | response (status : Nat) (body : Json)
  | unhandled (status : Nat)
deriving Repr

/-- Serialization of a send-task result by `create_response`
(src/server/server.py): `jsonable_encoder(result.model_dump(exclude_none=True))`,
dereferencing the task object the response holds at this instant. -/
def sendResponseBody (st : Store) (r : SendTaskResponse) : Json :=
  .obj ([("jsonrpc", .str "2.0")]
    ++ (match r.result with
        | some ref => [("result", (st.viewRef ref).toJson)]
        | none => [])
    ++ (match r.error with
        | some e => [("error", .obj [("code", .num e.code), ("message", .str e.message)])]
        | none => []))

/-- Body the handler's except-branch would send:
`JSONRPCResponse(id=None, error=InternalError(message=str(e))).model_dump()`.
This code is unreachable because the `logger.errorr` call before it raises. -/
def internalErrorBody (e : PyErr) : Json :=
  .obj [("jsonrpc", .str "2.0"), ("id", .null), ("result", .null),
        ("error", .obj [("code", .num (-32603)), ("message", .str e.str),
                        ("data", .null)])]

/-- The POST / route handler (src/server/server.py `handle_request`).
Its input is the outcome of `A2ARequest.validate_python` on the decoded
body (an exception for a malformed body or failed validation).  The try
block delegates only `SendTaskRequest`; any other resolved request raises
`ValueError("Unsupported A2A method")`.  The except block first calls
`logger.errorr(...)`; that attribute does not exist, so an
`AttributeError` escapes the handler and the framework answers 500, and
the 400 JSON-RPC error response below it is never sent. -/
def handleRequest (resolve : String → String → Except PyErr String) (now : Int)
    (body : Except PyErr A2AReq) (st : Store) : Store × HttpResult :=
  let tryOutcome : Store × Except PyErr Json :=
    match body with
    | .error e => (st, .error e)
    | .ok (.send r) =>
        match onSendTask resolve now r st with
        | (st1, .error e) => (st1, .error e)
        | (st1, .ok resp) => (st1, .ok (sendResponseBody st1 resp))
    | .ok (.get _) => (st, .error (.valueError "Unsupported A2A method"))
  match tryOutcome with
  | (st1, .ok bodyJson) => (st1, .response 200 bodyJson)
  | (st1, .error e) =>
      match loggerGetAttr "errorr" with
      | .error _ => (st1, .unhandled 500)
      | .ok _ => (st1, .response 400 (internalErrorBody e))

/-! Concrete fixtures used by witnesses and counterexamples (the scenario
of spec section 8). -/

/-- The scenario's incoming user message. -/
def msgU : Message := ⟨.user, [⟨"latest from r/golang"⟩]⟩

/-- A second user message for the same task. -/
def msgU2 : Message := ⟨.user, [⟨"anything new?"⟩]⟩

/-- Send parameters for task t1. -/
def paramsT1 : TaskSendParams := ⟨"t1", "s1", msgU, none⟩

/-- A follow-up send for task t1. -/
def paramsT1b : TaskSendParams := ⟨"t1", "s1", msgU2, none⟩

/-- The scenario's send request. -/
def sendReqT1 : SendTaskRequest := ⟨some "1", paramsT1⟩

/-- A resolver that deterministically succeeds. -/
def resolveA : String → String → Except PyErr String := fun _ _ => .ok "- post A"

/-- A resolver whose underlying call raises. -/
def resolveErr : String → String → Except PyErr String :=
  fun _ _ => .error (.runtimeError "boom")

/-- A resolver backed by `RedditAgent.invoke` when the runner produced no
events at all (a failed resolution): the call succeeds with the ad hoc
fallback string instead of surfacing an error. -/
def resolveNoEvents : String → String → Except PyErr String :=
  fun _ _ => .ok (redditInvoke [])

/-- The store after one upsert of t1 into the empty store. -/
def st1 : Store := (upsertTask 0 paramsT1 Store.empty).fst

/-- A get request for an id never sent. -/
def getReqMiss : GetTaskRequest := ⟨some "g", ⟨"missing", none⟩⟩

/-- A get request for t1 with historyLength 0. -/
def getReqT1Zero : GetTaskRequest := ⟨some "g", ⟨"t1", some 0⟩⟩

/-! Supporting lemmas about the heap primitives. -/

/-- Reading a set cell at its own index yields the written value. -/
theorem getD_set_self (l : List α) (n : Nat) (x d : α) (h : n < l.length) :
    (l.set n x).getD n d = x := by
  induction l generalizing n with
  | nil => simp at h
  | cons a t ih =>
    cases n with
    | zero => rfl
    | succ m => exact ih m (Nat.lt_of_succ_lt_succ h)

/-- Reading a set cell at a different index is unchanged. -/
theorem getD_set_other (l : List α) (n m : Nat) (x d : α) (h : n ≠ m) :
    (l.set m x).getD n d = l.getD n d := by
  induction l generalizing n m with
  | nil => rfl
  | cons a t ih =>
    cases m with
    | zero =>
      cases n with
      | zero => exact absurd rfl h
      | succ k => rfl
    | succ j =>
      cases n with
      | zero => rfl
      | succ k => exact ih k j (fun e => h (congrArg Nat.succ e))

/-- A defaulted read inside the bounds is a member of the list. -/
theorem getD_mem (l : List α) (n : Nat) (d : α) (h : n < l.length) :
    l.getD n d ∈ l := by
  rw [List.getD_eq_getElem l d h]
  exact List.getElem_mem h

/-- A successful assoc-list lookup yields one of the stored values. -/
theorem lookup_mem_snd {l : List (String × Nat)} {i : String} {r : Nat}
    (h : l.lookup i = some r) : r ∈ l.map Prod.snd := by
  induction l with
  | nil => simp [List.lookup] at h
  | cons p t ih =>
    rw [List.lookup] at h
    cases hbe : (i == p.1) with
    | true =>
      rw [hbe] at h
      simp only [List.map_cons, List.mem_cons]
      exact Or.inl (Option.some.inj h).symm
    | false =>
      rw [hbe] at h
      simp only [List.map_cons, List.mem_cons]
      exact Or.inr (ih h)

/-- A reference held in the dict of a well-formed store is in bounds. -/
theorem WF_ref_lt {st : Store} (hWF : st.WF) {i : String} {r : Nat}
    (h : st.lookupTask i = some r) : r < st.taskHeap.length :=
  hWF.1 r (lookup_mem_snd h)

/-- The history reference of a dict-reachable task of a well-formed store
is in bounds. -/
theorem WF_histRef_lt {st : Store} (hWF : st.WF) {i : String} {r : Nat}
    (h : st.lookupTask i = some r) :
    (st.getTask r).histRef < st.histHeap.length :=
  hWF.2 (st.getTask r) (getD_mem _ _ _ (WF_ref_lt hWF h))

/-! Behaviour of `upsertTask` on the heap. -/

/-- After an upsert, the dict maps the upserted id to the returned
reference (both in the create and in the append branch). -/
theorem upsert_lookup_self (now : Int) (params : TaskSendParams) (st : Store) :
    (upsertTask now params st).fst.lookupTask params.id =
      some (upsertTask now params st).snd := by
  unfold upsertTask
  cases hlk : st.lookupTask params.id with
  | none =>
    simp only [Store.allocHist, Store.allocTask, Store.lookupTask, List.lookup,
      beq_self_eq_true]
  | some tr =>
    simp only [Store.setHist, Store.lookupTask] at *
    exact hlk

/-- An upsert does not change the dict entries of other ids, the task
heap cells below the old length, nor the history cells other than the
appended-to one. -/
theorem upsert_fresh_shape (now : Int) (params : TaskSendParams) (st : Store)
    (hlk : st.lookupTask params.id = none) :
    (upsertTask now params st).fst =
      { histHeap := st.histHeap ++ [[params.message]],
        taskHeap := st.taskHeap ++
          [⟨params.id, ⟨TaskState.SUBMITTED, now⟩, st.histHeap.length⟩],
        tasks := (params.id, st.taskHeap.length) :: st.tasks } ∧
    (upsertTask now params st).snd = st.taskHeap.length := by
  unfold upsertTask
  rw [hlk]
  exact ⟨rfl, rfl⟩

/-- Shape of the append branch of an upsert. -/
theorem upsert_existing_shape (now : Int) (params : TaskSendParams) (st : Store)
    {tr : Nat} (hlk : st.lookupTask params.id = some tr) :
    (upsertTask now params st).fst =
      st.setHist (st.getTask tr).histRef
        (st.getHist (st.getTask tr).histRef ++ [params.message]) ∧
    (upsertTask now params st).snd = tr := by
  unfold upsertTask
  rw [hlk]
  exact ⟨rfl, rfl⟩

/-- Upsert preserves heap well-formedness. -/
theorem upsert_WF {st : Store} (hWF : st.WF) (now : Int) (params : TaskSendParams) :
    (upsertTask now params st).fst.WF := by
  cases hlk : st.lookupTask params.id with
  | none =>
    rw [(upsert_fresh_shape now params st hlk).1]
    constructor
    · intro r hr
      simp only [List.map_cons, List.mem_cons] at hr
      rw [List.length_append, List.length_singleton]
      rcases hr with h1 | h2
      · omega
      · have := hWF.1 r h2
        omega
    · intro t ht
      rw [List.mem_append] at ht
      rw [List.length_append, List.length_singleton]
      rcases ht with h1 | h2
      · have := hWF.2 t h1
        omega
      · rw [List.mem_singleton] at h2
        subst h2
        simp only
        omega
  | some tr =>
    rw [(upsert_existing_shape now params st hlk).1]
    constructor
    · intro r hr
      exact hWF.1 r hr
    · intro t ht
      simp only [Store.setHist] at ht ⊢
      rw [List.length_set]
      exact hWF.2 t ht

/-- Stored history of the upserted id after an upsert: the old history
(empty when the task is new) with the incoming message appended. -/
theorem upsert_self_hist {st : Store} (hWF : st.WF) (now : Int)
    (params : TaskSendParams) :
    storedHistory (upsertTask now params st).fst params.id =
      some ((storedHistory st params.id).getD [] ++ [params.message]) := by
  cases hlk : st.lookupTask params.id with
  | none =>
    obtain ⟨hshape, href⟩ := upsert_fresh_shape now params st hlk
    have h1 : (upsertTask now params st).fst.lookupTask params.id =
        some st.taskHeap.length := by
      rw [hshape]
      simp [Store.lookupTask, List.lookup]
    have h2 : (upsertTask now params st).fst.getTask st.taskHeap.length =
        ⟨params.id, ⟨TaskState.SUBMITTED, now⟩, st.histHeap.length⟩ := by
      rw [hshape, Store.getTask]
      show (st.taskHeap ++ [_]).getD st.taskHeap.length _ = _
      rw [List.getD_append_right _ _ _ _ (Nat.le_refl _)]
      simp
    have h3 : (upsertTask now params st).fst.getHist st.histHeap.length =
        [params.message] := by
      rw [hshape, Store.getHist]
      show (st.histHeap ++ [_]).getD st.histHeap.length _ = _
      rw [List.getD_append_right _ _ _ _ (Nat.le_refl _)]
      simp
    simp only [storedHistory, h1, h2, h3, Option.map]
    rw [hlk]
    simp
  | some tr =>
    obtain ⟨hshape, href⟩ := upsert_existing_shape now params st hlk
    have h1 : (upsertTask now params st).fst.lookupTask params.id = some tr := by
      rw [hshape]
      exact hlk
    have h2 : (upsertTask now params st).fst.getTask tr = st.getTask tr := by
      rw [hshape]
      rfl
    have h3 : (upsertTask now params st).fst.getHist (st.getTask tr).histRef =
        st.getHist (st.getTask tr).histRef ++ [params.message] := by
      rw [hshape]
      show (st.histHeap.set _ _).getD _ [] = _
      exact getD_set_self _ _ _ _ (WF_histRef_lt hWF hlk)
    simp only [storedHistory, h1, h2, h3, Option.map]
    rw [hlk]
    simp

/-- Stored status of the upserted id after an upsert: `submitted` for a
new task, untouched for an existing one. -/
theorem upsert_self_status (st : Store) (now : Int)
    (params : TaskSendParams) :
    storedStatus (upsertTask now params st).fst params.id =
      match st.lookupTask params.id with
      | none => some ⟨TaskState.SUBMITTED, now⟩
      | some _ => storedStatus st params.id := by
  cases hlk : st.lookupTask params.id with
  | none =>
    obtain ⟨hshape, href⟩ := upsert_fresh_shape now params st hlk
    have h1 : (upsertTask now params st).fst.lookupTask params.id =
        some st.taskHeap.length := by
      rw [hshape]
      simp [Store.lookupTask, List.lookup]
    have h2 : (upsertTask now params st).fst.getTask st.taskHeap.length =
        ⟨params.id, ⟨TaskState.SUBMITTED, now⟩, st.histHeap.length⟩ := by
      rw [hshape, Store.getTask]
      show (st.taskHeap ++ [_]).getD st.taskHeap.length _ = _
      rw [List.getD_append_right _ _ _ _ (Nat.le_refl _)]
      simp
    simp [storedStatus, h1, h2]
  | some tr =>
    obtain ⟨hshape, href⟩ := upsert_existing_shape now params st hlk
    have h1 : (upsertTask now params st).fst.lookupTask params.id = some tr := by
      rw [hshape]
      exact hlk
    have h2 : (upsertTask now params st).fst.getTask tr = st.getTask tr := by
      rw [hshape]
      rfl
    simp [storedStatus, storedHistory, h1, h2, hlk]

/-- Setting the cell just past a list's end, after a snoc, replaces the
snocced element. -/
theorem set_snoc_length (l : List α) (a b : α) :
    (l ++ [a]).set l.length b = l ++ [b] := by
  induction l with
  | nil => rfl
  | cons x t ih => simp [ih]

/-- Appending one message in place to any history cell leaves every stored
history equal or extended (a stored task either shares that cell or is
untouched). -/
theorem appendHist_grow (st : Store) (hr : Nat) (hlt : hr < st.histHeap.length)
    (msg : Message) (i : String) (h : List Message)
    (hh : storedHistory st i = some h) :
    ∃ t2, storedHistory (st.setHist hr (st.getHist hr ++ [msg])) i =
      some (h ++ t2) := by
  obtain ⟨r, hlkI, hgh⟩ : ∃ r, st.lookupTask i = some r ∧
      st.getHist (st.getTask r).histRef = h := by
    rw [storedHistory] at hh
    cases hl : st.lookupTask i with
    | none => rw [hl] at hh; cases hh
    | some r =>
      rw [hl] at hh
      exact ⟨r, rfl, Option.some.inj hh⟩
  have hl2 : (st.setHist hr (st.getHist hr ++ [msg])).lookupTask i = some r := hlkI
  have hgt : (st.setHist hr (st.getHist hr ++ [msg])).getTask r = st.getTask r := rfl
  by_cases hre : (st.getTask r).histRef = hr
  · refine ⟨[msg], ?_⟩
    have hnew : (st.setHist hr (st.getHist hr ++ [msg])).getHist
        (st.getTask r).histRef = st.getHist hr ++ [msg] := by
      rw [hre]
      show (st.histHeap.set hr _).getD hr [] = _
      exact getD_set_self _ _ _ _ hlt
    simp only [storedHistory, hl2, Option.map, hgt, hnew]
    rw [← hgh, hre]
  · refine ⟨[], ?_⟩
    have hnew : (st.setHist hr (st.getHist hr ++ [msg])).getHist
        (st.getTask r).histRef = st.getHist (st.getTask r).histRef := by
      show (st.histHeap.set hr _).getD _ [] = _
      exact getD_set_other _ _ _ _ _ hre
    simp only [storedHistory, hl2, Option.map, hgt, hnew, hgh,
      List.append_nil]

/-- Replacing a task object on the heap with one holding the same history
reference (as the status rebinding in `on_send_task` does) changes no
stored history. -/
theorem setTask_storedHistory (st : Store) (r : Nat) (t2 : TaskObj)
    (hhr : t2.histRef = (st.getTask r).histRef) (i : String) :
    storedHistory (st.setTask r t2) i = storedHistory st i := by
  rw [storedHistory, storedHistory]
  have hlook : (st.setTask r t2).lookupTask i = st.lookupTask i := rfl
  rw [hlook]
  cases hl : st.lookupTask i with
  | none => rfl
  | some r2 =>
    have hgt : ((st.setTask r t2).getTask r2).histRef =
        (st.getTask r2).histRef := by
      by_cases hrr : r2 = r
      · subst hrr
        by_cases hrl : r2 < st.taskHeap.length
        · show ((st.taskHeap.set r2 t2).getD r2 _).histRef = _
          rw [getD_set_self _ _ _ _ hrl, hhr]
        · show ((st.taskHeap.set r2 t2).getD r2 _).histRef = _
          rw [List.set_eq_of_length_le (Nat.le_of_not_lt hrl)]
          rfl
      · show ((st.taskHeap.set r t2).getD r2 _).histRef = _
        rw [getD_set_other _ _ _ _ _ hrr]
        rfl
    simp only [Option.map]
    rw [hgt]
    rfl

/-- An upsert leaves every stored history equal or extended. -/
theorem upsert_grow {st : Store} (hWF : st.WF) (now : Int)
    (params : TaskSendParams) (i : String) (h : List Message)
    (hh : storedHistory st i = some h) :
    ∃ t2, storedHistory (upsertTask now params st).fst i = some (h ++ t2) := by
  obtain ⟨r, hlkI, hgh⟩ : ∃ r, st.lookupTask i = some r ∧
      st.getHist (st.getTask r).histRef = h := by
    rw [storedHistory] at hh
    cases hl : st.lookupTask i with
    | none => rw [hl] at hh; cases hh
    | some r =>
      rw [hl] at hh
      exact ⟨r, rfl, Option.some.inj hh⟩
  cases hlk : st.lookupTask params.id with
  | none =>
    refine ⟨[], ?_⟩
    obtain ⟨hshape, href⟩ := upsert_fresh_shape now params st hlk
    have hne : (i == params.id) = false := by
      rw [beq_eq_false_iff_ne]
      intro he
      rw [he, hlk] at hlkI
      cases hlkI
    have hl2 : (upsertTask now params st).fst.lookupTask i = some r := by
      rw [hshape]
      show List.lookup i ((params.id, st.taskHeap.length) :: st.tasks) = some r
      rw [List.lookup, hne]
      exact hlkI
    have hrlt : r < st.taskHeap.length := WF_ref_lt hWF hlkI
    have hgt : (upsertTask now params st).fst.getTask r = st.getTask r := by
      rw [hshape]
      show (st.taskHeap ++ _).getD r _ = _
      rw [List.getD_append _ _ _ _ hrlt]
      rfl
    have hhlt : (st.getTask r).histRef < st.histHeap.length :=
      WF_histRef_lt hWF hlkI
    have hgh2 : (upsertTask now params st).fst.getHist (st.getTask r).histRef =
        st.getHist (st.getTask r).histRef := by
      rw [hshape]
      show (st.histHeap ++ _).getD _ _ = _
      rw [List.getD_append _ _ _ _ hhlt]
      rfl
    simp only [storedHistory, hl2, Option.map, hgt, hgh2, hgh,
      List.append_nil]
  | some tr =>
    obtain ⟨hshape, href⟩ := upsert_existing_shape now params st hlk
    rw [hshape]
    exact appendHist_grow st (st.getTask tr).histRef (WF_histRef_lt hWF hlk)
      params.message i h hh

/-- Shape of a get on a missing id: building the error response raises a
`ValidationError` and the store is untouched. -/
theorem onGetTask_miss_shape (req : GetTaskRequest) (st : Store)
    (hlk : st.lookupTask req.params.id = none) :
    onGetTask req st =
      (st, .error (.validationError "JSONRPCError: code field required")) := by
  simp only [onGetTask, hlk, validateJSONRPCError]

/-- Shape of a get hit without a historyLength: only the shallow copy is
allocated. -/
theorem onGetTask_hit_none_shape (req : GetTaskRequest) (st : Store) {tr : Nat}
    (hlk : st.lookupTask req.params.id = some tr)
    (hn : req.params.historyLength = none) :
    onGetTask req st =
      ({ st with taskHeap := st.taskHeap ++ [st.getTask tr] },
       .ok ⟨req.rpcId, some st.taskHeap.length, none⟩) := by
  simp only [onGetTask, hlk, hn, Store.allocTask]

/-- Shape of a get hit with a historyLength: the copy is allocated, a fresh
sliced history list is allocated, and the copy's history reference is
rebound to it; the original task and all stored cells are untouched. -/
theorem onGetTask_hit_some_shape (req : GetTaskRequest) (st : Store)
    {tr : Nat} {n : Int}
    (hlk : st.lookupTask req.params.id = some tr)
    (hn : req.params.historyLength = some n) :
    onGetTask req st =
      ({ histHeap := st.histHeap ++
           [pySliceFrom (-n) (st.getHist (st.getTask tr).histRef)],
         taskHeap := st.taskHeap ++
           [{ st.getTask tr with histRef := st.histHeap.length }],
         tasks := st.tasks },
       .ok ⟨req.rpcId, some st.taskHeap.length, none⟩) := by
  have hc : ({ st with taskHeap := st.taskHeap ++ [st.getTask tr] } : Store).getTask
      st.taskHeap.length = st.getTask tr := by
    rw [Store.getTask]
    show (st.taskHeap ++ [st.getTask tr]).getD st.taskHeap.length _ = _
    rw [List.getD_append_right _ _ _ _ (Nat.le_refl _)]
    simp
  simp only [onGetTask, hlk, hn, Store.allocTask, Store.allocHist]
  rw [hc]
  simp only [Store.setTask]
  rw [set_snoc_length]
  rfl

/-- A read (`on_get_task`) changes no stored history at all: the slicing
happens on freshly allocated cells only. -/
theorem onGetTask_storedHistory {st : Store} (hWF : st.WF)
    (req : GetTaskRequest) (i : String) :
    storedHistory (onGetTask req st).fst i = storedHistory st i := by
  cases hlk : st.lookupTask req.params.id with
  | none => rw [onGetTask_miss_shape req st hlk]
  | some tr =>
    have key : ∀ st2 : Store, st2.tasks = st.tasks →
        (∀ r, r < st.taskHeap.length → st2.getTask r = st.getTask r) →
        (∀ h0, h0 < st.histHeap.length → st2.getHist h0 = st.getHist h0) →
        storedHistory st2 i = storedHistory st i := by
      intro st2 htasks hgt hgh
      rw [storedHistory, storedHistory, Store.lookupTask, Store.lookupTask, htasks]
      cases hl : st.tasks.lookup i with
      | none => rfl
      | some r =>
        simp only [Option.map]
        have hrlt : r < st.taskHeap.length := hWF.1 r (lookup_mem_snd hl)
        have hb : (st.getTask r).histRef < st.histHeap.length :=
          hWF.2 _ (getD_mem _ _ _ hrlt)
        rw [hgt r hrlt, hgh _ hb]
    cases hn : req.params.historyLength with
    | none =>
      rw [onGetTask_hit_none_shape req st hlk hn]
      refine key _ rfl (fun r hr => ?_) (fun h0 hh => ?_)
      · show (st.taskHeap ++ [st.getTask tr]).getD r _ = _
        rw [List.getD_append _ _ _ _ hr]
        rfl
      · rfl
    | some n =>
      rw [onGetTask_hit_some_shape req st hlk hn]
      refine key _ rfl (fun r hr => ?_) (fun h0 hh => ?_)
      · show (st.taskHeap ++ [_]).getD r _ = _
        rw [List.getD_append _ _ _ _ hr]
        rfl
      · show (st.histHeap ++ [_]).getD h0 _ = _
        rw [List.getD_append _ _ _ _ hh]
        rfl

/-- Shape of a send whose query extraction raises: the post-upsert store is
kept and the exception escapes. -/
theorem onSendTask_queryErr_shape (resolve : String → String → Except PyErr String)
    (now : Int) (req : SendTaskRequest) (st : Store) {e : PyErr}
    (hq : getUserQuery req = .error e) :
    onSendTask resolve now req st =
      ((upsertTask now req.params st).fst, .error e) := by
  simp only [onSendTask, hq]

/-- Shape of a send whose resolve call raises: the post-upsert store is
kept (the incoming message stays recorded) and the exception escapes. -/
theorem onSendTask_resolveErr_shape (resolve : String → String → Except PyErr String)
    (now : Int) (req : SendTaskRequest) (st : Store) {q : String} {e : PyErr}
    (hq : getUserQuery req = .ok q)
    (hr : resolve q req.params.session_id = .error e) :
    onSendTask resolve now req st =
      ((upsertTask now req.params st).fst, .error e) := by
  simp only [onSendTask, hq, hr]

/-- Shape of a successful send: after the upsert, the stored task object's
status is rebound and the agent reply is appended in place to its history
list; the response carries the stored task object itself. -/
theorem onSendTask_ok_shape (resolve : String → String → Except PyErr String)
    (now : Int) (req : SendTaskRequest) (st : Store) {q text : String}
    (hq : getUserQuery req = .ok q)
    (hr : resolve q req.params.session_id = .ok text) :
    onSendTask resolve now req st =
      (let u := upsertTask now req.params st
       let t := u.1.getTask u.2
       let st2 := u.1.setTask u.2 { t with status := ⟨"COMPLETED", now⟩ }
       (st2.setHist t.histRef (st2.getHist t.histRef ++ [⟨.agent, [⟨text⟩]⟩]),
        .ok ⟨some u.2, none⟩)) := by
  simp only [onSendTask, hq, hr]

/-- A send (`on_send_task`) leaves every previously stored history equal
or extended, on every control path. -/
theorem onSendTask_grow {st : Store} (hWF : st.WF)
    (resolve : String → String → Except PyErr String) (now : Int)
    (req : SendTaskRequest) (i : String) (h : List Message)
    (hh : storedHistory st i = some h) :
    ∃ t2, storedHistory (onSendTask resolve now req st).fst i = some (h ++ t2) := by
  obtain ⟨t1, h1⟩ := upsert_grow hWF now req.params i h hh
  cases hq : getUserQuery req with
  | error e =>
    rw [onSendTask_queryErr_shape resolve now req st hq]
    exact ⟨t1, h1⟩
  | ok q =>
    cases hr : resolve q req.params.session_id with
    | error e =>
      rw [onSendTask_resolveErr_shape resolve now req st hq hr]
      exact ⟨t1, h1⟩
    | ok text =>
      rw [onSendTask_ok_shape resolve now req st hq hr]
      show ∃ t2, storedHistory
        (((upsertTask now req.params st).fst.setTask (upsertTask now req.params st).snd
            { (upsertTask now req.params st).fst.getTask (upsertTask now req.params st).snd
                with status := ⟨"COMPLETED", now⟩ }).setHist
          ((upsertTask now req.params st).fst.getTask (upsertTask now req.params st).snd).histRef
          _) i = some (h ++ t2)
      have hWF1 : (upsertTask now req.params st).fst.WF := upsert_WF hWF now req.params
      have hlku := upsert_lookup_self now req.params st
      have hhr : ((upsertTask now req.params st).fst.getTask
          (upsertTask now req.params st).snd).histRef <
          (upsertTask now req.params st).fst.histHeap.length :=
        WF_histRef_lt hWF1 hlku
      have h2 : storedHistory
          ((upsertTask now req.params st).fst.setTask (upsertTask now req.params st).snd
            { (upsertTask now req.params st).fst.getTask (upsertTask now req.params st).snd
                with status := ⟨"COMPLETED", now⟩ }) i =
          storedHistory (upsertTask now req.params st).fst i :=
        setTask_storedHistory _ _ _ (by rfl) i
      obtain ⟨t3, h3⟩ := appendHist_grow
        ((upsertTask now req.params st).fst.setTask (upsertTask now req.params st).snd
          { (upsertTask now req.params st).fst.getTask (upsertTask now req.params st).snd
              with status := ⟨"COMPLETED", now⟩ })
        ((upsertTask now req.params st).fst.getTask (upsertTask now req.params st).snd).histRef
        hhr ⟨.agent, [⟨text⟩]⟩ i (h ++ t1) (h2.trans h1)
      refine ⟨t1 ++ t3, ?_⟩
      rw [← List.append_assoc]
      exact h3

/-! Round-trip lemmas for the wire shape. -/

/-- A dumped TextPart validates back to itself. -/
theorem textPart_roundtrip (p : TextPart) :
    TextPart.fromJson (TextPart.toJson p) = some p := by
  cases p
  rfl

/-- A dumped role string validates back to the same role. -/
theorem role_roundtrip (r : Role) : Role.fromWire r.toWire = some r := by
  cases r <;> rfl

/-- A dumped part list validates back to itself. -/
theorem parsePartList_roundtrip (ps : List TextPart) :
    parsePartList (ps.map TextPart.toJson) = some ps := by
  induction ps with
  | nil => rfl
  | cons p t ih =>
    rw [List.map_cons, parsePartList, textPart_roundtrip, ih]

/-- A dumped Message validates back to itself. -/
theorem message_roundtrip (m : Message) :
    Message.fromJson (Message.toJson m) = some m := by
  cases m with
  | mk r ps =>
    simp [Message.toJson, Message.fromJson, Json.getField, List.lookup,
      role_roundtrip, parsePartList_roundtrip]

/-- A dumped TaskStatus validates back to itself. -/
theorem taskStatus_roundtrip (s : TaskStatus) :
    TaskStatus.fromJson (TaskStatus.toJson s) = some s := by
  cases s
  rfl

/-- A dumped message list validates back to itself. -/
theorem parseMessageList_roundtrip (ms : List Message) :
    parseMessageList (ms.map Message.toJson) = some ms := by
  induction ms with
  | nil => rfl
  | cons m t ih =>
    rw [List.map_cons, parseMessageList, message_roundtrip, ih]

/-- An upsert to an id that does not alias a given task cell's history
leaves that cell's observed history unchanged. -/
theorem upsert_view_stable (stG : Store) (now : Int) (params : TaskSendParams)
    (cr : Nat) (hcr : cr < stG.taskHeap.length)
    (hhr : (stG.getTask cr).histRef < stG.histHeap.length)
    (hnoalias : ∀ r, stG.lookupTask params.id = some r →
        (stG.getTask r).histRef ≠ (stG.getTask cr).histRef) :
    ((upsertTask now params stG).fst.viewRef cr).history =
      (stG.viewRef cr).history := by
  cases hlk2 : stG.lookupTask params.id with
  | none =>
    obtain ⟨hshape, _⟩ := upsert_fresh_shape now params stG hlk2
    rw [hshape]
    simp only [Store.viewRef]
    have hg1 :
        ({ histHeap := stG.histHeap ++ [[params.message]],
           taskHeap := stG.taskHeap ++
             [⟨params.id, ⟨TaskState.SUBMITTED, now⟩, stG.histHeap.length⟩],
           tasks := (params.id, stG.taskHeap.length) :: stG.tasks } : Store).getTask cr
          = stG.getTask cr := by
      show (stG.taskHeap ++ _).getD cr _ = _
      rw [List.getD_append _ _ _ _ hcr]
      rfl
    rw [hg1]
    show (stG.histHeap ++ _).getD _ [] = _
    rw [List.getD_append _ _ _ _ hhr]
    rfl
  | some r =>
    obtain ⟨hshape, _⟩ := upsert_existing_shape now params stG hlk2
    rw [hshape]
    have hne := hnoalias r hlk2
    simp only [Store.viewRef]
    have hg1 : (stG.setHist (stG.getTask r).histRef
        (stG.getHist (stG.getTask r).histRef ++ [params.message])).getTask cr
        = stG.getTask cr := rfl
    rw [hg1]
    show (stG.histHeap.set _ _).getD _ [] = _
    exact getD_set_other _ _ _ _ _ (Ne.symm hne)

/-! Claim theorems. -/

/-- C1, counterexample: a `tasks/get` POST for an id never sent does not
reach `on_get_task` and does not return a JSON-RPC error result; the
handler raises "Unsupported A2A method" and the faulty `logger.errorr`
call turns this into an unhandled 500 with no body. -/
theorem c1_counterexample :
    handleRequest resolveA 0 (.ok (.get getReqMiss)) Store.empty =
      (Store.empty, .unhandled 500) := rfl

/-- C1, amended: POST / dispatch resolves `tasks/get` to the
`GetTaskRequest` shape, but the handler delegates only `tasks/send`; every
resolved `tasks/get` request raises "Unsupported A2A method" and — the
exception handler's logger call itself raising `AttributeError` — the
caller receives an unhandled 500, with `on_get_task` never invoked and no
JSON-RPC result or error payload returned. -/
theorem c1_get_never_dispatched (resolve : String → String → Except PyErr String)
    (now : Int) (g : GetTaskRequest) (st : Store) :
    handleRequest resolve now (.ok (.get g)) st = (st, .unhandled 500) := rfl

/-- C2: on a fresh valid `tasks/send`, the returned task's history is
exactly the user query followed by the agent reply, but its status state
is the raw string "COMPLETED" set by `on_send_task`, which differs from
the `TaskState.COMPLETED` enum value "completed" that the claim states. -/
theorem c2_fresh_send_state_and_history :
    (onSendTask resolveA 0 sendReqT1 Store.empty).snd = .ok ⟨some 0, none⟩ ∧
    ((onSendTask resolveA 0 sendReqT1 Store.empty).fst.viewRef 0).status.state
      = "COMPLETED" ∧
    ((onSendTask resolveA 0 sendReqT1 Store.empty).fst.viewRef 0).status.state
      ≠ TaskState.COMPLETED ∧
    ((onSendTask resolveA 0 sendReqT1 Store.empty).fst.viewRef 0).history
      = [msgU, ⟨.agent, [⟨"- post A"⟩]⟩] :=
  ⟨rfl, rfl, by decide, rfl⟩

/-- C3: no failing POST / request gets the documented 400 response with code -32603.
Every request either succeeds with a 200 or escapes as an unhandled 500
(the except branch dies on `logger.errorr` before it can build the 400);
in particular a malformed body yields the bare 500. -/
theorem c3_failure_gives_500_not_400 :
    (∀ (resolve : String → String → Except PyErr String) (now : Int)
        (st : Store) (e : PyErr),
        handleRequest resolve now (.error e) st = (st, .unhandled 500)) ∧
    (∀ (resolve : String → String → Except PyErr String) (now : Int)
        (inp : Except PyErr A2AReq) (st : Store),
        (handleRequest resolve now inp st).snd = .unhandled 500 ∨
        ∃ b, (handleRequest resolve now inp st).snd = .response 200 b) ∧
    handleRequest resolveA 0 (.error (.validationError "malformed body"))
        Store.empty = (Store.empty, .unhandled 500) := by
  refine ⟨fun resolve now st e => rfl, fun resolve now inp st => ?_, rfl⟩
  cases inp with
  | error e => exact Or.inl rfl
  | ok a =>
    cases a with
    | get g => exact Or.inl rfl
    | send r =>
      rcases hs : onSendTask resolve now r st with ⟨st2, res⟩
      cases res with
      | error e =>
        refine Or.inl ?_
        simp [handleRequest, hs, loggerGetAttr, loggerAttrs]
      | ok resp =>
        refine Or.inr ⟨sendResponseBody st2 resp, ?_⟩
        simp [handleRequest, hs]

/-- C4: reading an existing task with `historyLength = 0` returns the full
stored history, not an empty one, because the Python slice `history[-0:]`
is `history[0:]`; shown on a one-message task. -/
theorem c4_zero_historyLength_full :
    (onGetTask getReqT1Zero st1).snd = .ok ⟨some "g", some 1, none⟩ ∧
    ((onGetTask getReqT1Zero st1).fst.viewRef 1).history = [msgU] ∧
    ((onGetTask getReqT1Zero st1).fst.viewRef 1).history ≠ [] :=
  ⟨rfl, rfl, by decide⟩

/-- C5: `upsert_task` stores the upserted id under the returned reference
and, for a fresh id, creates a task with status `submitted` and history
`[params.message]`; for an existing id it returns that task, appends the
message to its history, and leaves status and id untouched. -/
theorem c5_upsert_spec (st : Store) (now : Int) (params : TaskSendParams)
    (hWF : st.WF) :
    (upsertTask now params st).fst.lookupTask params.id =
        some (upsertTask now params st).snd ∧
    (match st.lookupTask params.id with
     | none =>
         (upsertTask now params st).fst.viewRef (upsertTask now params st).snd =
           ⟨params.id, ⟨TaskState.SUBMITTED, now⟩, [params.message]⟩
     | some tr =>
         (upsertTask now params st).snd = tr ∧
         ((upsertTask now params st).fst.viewRef tr).history =
           (st.viewRef tr).history ++ [params.message] ∧
         ((upsertTask now params st).fst.viewRef tr).status =
           (st.viewRef tr).status ∧
         ((upsertTask now params st).fst.viewRef tr).id = (st.viewRef tr).id) := by
  refine ⟨upsert_lookup_self now params st, ?_⟩
  cases hlk : st.lookupTask params.id with
  | none =>
    obtain ⟨hshape, href⟩ := upsert_fresh_shape now params st hlk
    have h2 : (upsertTask now params st).fst.getTask st.taskHeap.length =
        ⟨params.id, ⟨TaskState.SUBMITTED, now⟩, st.histHeap.length⟩ := by
      rw [hshape, Store.getTask]
      show (st.taskHeap ++ [_]).getD st.taskHeap.length _ = _
      rw [List.getD_append_right _ _ _ _ (Nat.le_refl _)]
      simp
    have h3 : (upsertTask now params st).fst.getHist st.histHeap.length =
        [params.message] := by
      rw [hshape, Store.getHist]
      show (st.histHeap ++ [_]).getD st.histHeap.length _ = _
      rw [List.getD_append_right _ _ _ _ (Nat.le_refl _)]
      simp
    rw [href]
    simp [Store.viewRef, h2, h3]
  | some tr =>
    obtain ⟨hshape, href⟩ := upsert_existing_shape now params st hlk
    refine ⟨href, ?_, ?_, ?_⟩
    · rw [hshape]
      simp only [Store.viewRef]
      show (st.histHeap.set _ _).getD _ [] = _
      exact getD_set_self _ _ _ _ (WF_histRef_lt hWF hlk)
    · rw [hshape]
      rfl
    · rw [hshape]
      rfl

/-- C5 witness: applying the specification at the empty store. -/
theorem c5_witness :
    (upsertTask 0 paramsT1 Store.empty).fst.lookupTask paramsT1.id =
      some (upsertTask 0 paramsT1 Store.empty).snd :=
  (c5_upsert_spec Store.empty 0 paramsT1 (by decide)).1

/-- C6: looking up a missing id in `on_get_task` does not return a
structured error response — constructing
`GetTaskResponse(error={"message": "Task not found"})` raises a pydantic
`ValidationError` because the dict lacks the required `code` field. -/
theorem c6_get_miss_raises (st : Store) (req : GetTaskRequest)
    (hmiss : st.lookupTask req.params.id = none) :
    onGetTask req st =
      (st, .error (.validationError "JSONRPCError: code field required")) :=
  onGetTask_miss_shape req st hmiss

/-- C6 witness: the raise observed on the empty store. -/
theorem c6_witness :
    onGetTask getReqMiss Store.empty =
      (Store.empty, .error (.validationError "JSONRPCError: code field required")) :=
  c6_get_miss_raises Store.empty getReqMiss rfl

/-- C7, counterexample: when resolution produces nothing usable (the
runner returned no events), `invoke` falls back to the ad hoc string and
`on_send_task` silently marks the task completed with that string as the
agent reply — no error of any kind surfaces. -/
theorem c7_counterexample :
    (onSendTask resolveNoEvents 0 sendReqT1 Store.empty).snd =
      .ok ⟨some 0, none⟩ ∧
    ((onSendTask resolveNoEvents 0 sendReqT1 Store.empty).fst.viewRef 0).status.state
      = "COMPLETED" ∧
    ((onSendTask resolveNoEvents 0 sendReqT1 Store.empty).fst.viewRef 0).history
      = [msgU, ⟨.agent, [⟨"No response from agent"⟩]⟩] :=
  ⟨rfl, rfl, rfl⟩

/-- C7, amended: when the resolve call raises, the store is exactly the
post-upsert store — the incoming message stays recorded, the status is
`submitted` for a new task and untouched for an existing one, nothing is
marked completed — and the resolver's own exception propagates to the
caller. -/
theorem c7_resolve_error_durable (st : Store)
    (resolve : String → String → Except PyErr String) (now : Int)
    (req : SendTaskRequest) (q : String) (e : PyErr) (hWF : st.WF)
    (hq : getUserQuery req = .ok q)
    (hr : resolve q req.params.session_id = .error e) :
    onSendTask resolve now req st =
      ((upsertTask now req.params st).fst, .error e) ∧
    storedHistory (onSendTask resolve now req st).fst req.params.id =
      some ((storedHistory st req.params.id).getD [] ++ [req.params.message]) ∧
    storedStatus (onSendTask resolve now req st).fst req.params.id =
      (match st.lookupTask req.params.id with
       | none => some ⟨TaskState.SUBMITTED, now⟩
       | some _ => storedStatus st req.params.id) := by
  have hsh := onSendTask_resolveErr_shape resolve now req st hq hr
  refine ⟨hsh, ?_, ?_⟩
  · rw [hsh]
    exact upsert_self_hist hWF now req.params
  · rw [hsh]
    exact upsert_self_status st now req.params

/-- C7 witness: a raising resolver observed on the empty store. -/
theorem c7_witness :
    onSendTask resolveErr 0 sendReqT1 Store.empty =
      ((upsertTask 0 paramsT1 Store.empty).fst, .error (.runtimeError "boom")) :=
  (c7_resolve_error_durable Store.empty resolveErr 0 sendReqT1
    "latest from r/golang" (.runtimeError "boom") (by decide) rfl rfl).1

/-- C8: no operation of the layer ever shrinks a stored task's history —
`upsert_task` and `on_send_task` leave every stored history equal or
extended on every control path, and `on_get_task`'s last-N projection
changes no stored history at all. -/
theorem c8_history_never_shrinks (st : Store) (hWF : st.WF) :
    (∀ (now : Int) (params : TaskSendParams) (i : String) (h : List Message),
        storedHistory st i = some h →
        ∃ t2, storedHistory (upsertTask now params st).fst i = some (h ++ t2)) ∧
    (∀ (resolve : String → String → Except PyErr String) (now : Int)
        (req : SendTaskRequest) (i : String) (h : List Message),
        storedHistory st i = some h →
        ∃ t2, storedHistory (onSendTask resolve now req st).fst i = some (h ++ t2)) ∧
    (∀ (req : GetTaskRequest) (i : String),
        storedHistory (onGetTask req st).fst i = storedHistory st i) :=
  ⟨fun now params i h hh => upsert_grow hWF now params i h hh,
   fun resolve now req i h hh => onSendTask_grow hWF resolve now req i h hh,
   fun req i => onGetTask_storedHistory hWF req i⟩

/-- C8 witness: the invariant applied to the one-task store. -/
theorem c8_witness :
    (∃ t2, storedHistory (upsertTask 1 paramsT1b st1).fst "t1" =
        some ([msgU] ++ t2)) ∧
    storedHistory (onGetTask getReqT1Zero st1).fst "t1" =
      storedHistory st1 "t1" :=
  ⟨(c8_history_never_shrinks st1 (by decide)).1 1 paramsT1b "t1" [msgU] rfl,
   (c8_history_never_shrinks st1 (by decide)).2.2 getReqT1Zero "t1"⟩

/-- C10: serializing any Task value to the wire shape
`{id, status: {state, timestamp}, history: [{role, parts: [...]}]}` and
validating that wire form back yields an equal Task. -/
theorem c10_task_wire_roundtrip (t : TaskView) :
    TaskView.fromJson (TaskView.toJson t) = some t := by
  cases t with
  | mk i s hist =>
    simp [TaskView.toJson, TaskView.fromJson, Json.getField, List.lookup,
      taskStatus_roundtrip, parseMessageList_roundtrip]

/-- C9, counterexample: the task value handed out by `on_send_task` is a
live reference into the store, not a detached copy — a later upsert to the
same id changes the task value the earlier caller already holds. -/
theorem c9_counterexample :
    (onSendTask resolveA 0 sendReqT1 Store.empty).snd = .ok ⟨some 0, none⟩ ∧
    (upsertTask 1 paramsT1b
        (onSendTask resolveA 0 sendReqT1 Store.empty).fst).fst.viewRef 0 ≠
      (onSendTask resolveA 0 sendReqT1 Store.empty).fst.viewRef 0 :=
  ⟨rfl, by decide⟩

/-- C9, amended: `on_send_task` returns the stored task object itself
(its response result is exactly the reference the dict holds for the id),
so later store mutations are visible to that caller; only a read with
`historyLength` set hands out a projection whose history is freshly
allocated — a subsequent upsert to any id leaves that projection's
observed history unchanged. -/
theorem c9_sharing_and_detached_projection (st : Store) (hWF : st.WF) :
    (∀ (resolve : String → String → Except PyErr String) (now : Int)
        (req : SendTaskRequest) (st2 : Store) (resp : SendTaskResponse),
        onSendTask resolve now req st = (st2, .ok resp) →
        resp.result = st2.lookupTask req.params.id) ∧
    (∀ (req : GetTaskRequest) (n : Int) (tr : Nat),
        req.params.historyLength = some n →
        st.lookupTask req.params.id = some tr →
        (onGetTask req st).snd =
          .ok ⟨req.rpcId, some st.taskHeap.length, none⟩ ∧
        ∀ (now : Int) (params : TaskSendParams),
          ((upsertTask now params (onGetTask req st).fst).fst.viewRef
              st.taskHeap.length).history =
            ((onGetTask req st).fst.viewRef st.taskHeap.length).history) := by
  constructor
  · intro resolve now req st2 resp hok
    cases hq : getUserQuery req with
    | error e =>
      rw [onSendTask_queryErr_shape resolve now req st hq] at hok
      simp at hok
    | ok q =>
      cases hr : resolve q req.params.session_id with
      | error e =>
        rw [onSendTask_resolveErr_shape resolve now req st hq hr] at hok
        simp at hok
      | ok text =>
        have hst2 : (onSendTask resolve now req st).fst = st2 :=
          congrArg Prod.fst hok
        have hresp : (onSendTask resolve now req st).snd = .ok resp :=
          congrArg Prod.snd hok
        subst hst2
        rw [onSendTask_ok_shape resolve now req st hq hr] at hresp
        have hresp2 : (⟨some (upsertTask now req.params st).snd, none⟩ :
            SendTaskResponse) = resp := Except.ok.inj hresp
        subst hresp2
        rw [onSendTask_ok_shape resolve now req st hq hr]
        exact (upsert_lookup_self now req.params st).symm
  · intro req n tr hn hlk
    have hsh := onGetTask_hit_some_shape req st hlk hn
    have hT : (onGetTask req st).fst =
        ({ histHeap := st.histHeap ++
             [pySliceFrom (-n) (st.getHist (st.getTask tr).histRef)],
           taskHeap := st.taskHeap ++
             [{ st.getTask tr with histRef := st.histHeap.length }],
           tasks := st.tasks } : Store) := congrArg Prod.fst hsh
    constructor
    · rw [hsh]
    · intro now params
      rw [hT]
      have hgt2 :
          ({ histHeap := st.histHeap ++
               [pySliceFrom (-n) (st.getHist (st.getTask tr).histRef)],
             taskHeap := st.taskHeap ++
               [{ st.getTask tr with histRef := st.histHeap.length }],
             tasks := st.tasks } : Store).getTask st.taskHeap.length
            = { st.getTask tr with histRef := st.histHeap.length } := by
        show (st.taskHeap ++ _).getD st.taskHeap.length _ = _
        rw [List.getD_append_right _ _ _ _ (Nat.le_refl _)]
        simp
      apply upsert_view_stable
      · rw [List.length_append]
        simp
      · rw [hgt2]
        show st.histHeap.length < (st.histHeap ++ _).length
        rw [List.length_append]
        simp
      · intro r hr2
        have hr3 : st.lookupTask params.id = some r := hr2
        have hrlt : r < st.taskHeap.length := WF_ref_lt hWF hr3
        have hgr :
            ({ histHeap := st.histHeap ++
                 [pySliceFrom (-n) (st.getHist (st.getTask tr).histRef)],
               taskHeap := st.taskHeap ++
                 [{ st.getTask tr with histRef := st.histHeap.length }],
               tasks := st.tasks } : Store).getTask r = st.getTask r := by
          show (st.taskHeap ++ _).getD r _ = _
          rw [List.getD_append _ _ _ _ hrlt]
          rfl
        rw [hgr, hgt2]
        show (st.getTask r).histRef ≠ st.histHeap.length
        exact Nat.ne_of_lt (hWF.2 _ (getD_mem _ _ _ hrlt))

/-- C9 witness: the sharing fact and the projection stability observed on
concrete stores. -/
theorem c9_witness :
    ((⟨some 0, none⟩ : SendTaskResponse).result =
      (onSendTask resolveA 0 sendReqT1 Store.empty).fst.lookupTask
        sendReqT1.params.id) ∧
    ((upsertTask 1 paramsT1b (onGetTask getReqT1Zero st1).fst).fst.viewRef
        st1.taskHeap.length).history =
      ((onGetTask getReqT1Zero st1).fst.viewRef st1.taskHeap.length).history :=
  ⟨(c9_sharing_and_detached_projection Store.empty (by decide)).1 resolveA 0
      sendReqT1 (onSendTask resolveA 0 sendReqT1 Store.empty).fst
      ⟨some 0, none⟩ rfl,
   ((c9_sharing_and_detached_projection st1 (by decide)).2 getReqT1Zero 0 0
      rfl rfl).2 1 paramsT1b⟩

end RedditA2A
